import Mathlib

/-!
Verification development for the TopicMgr collaborative-editing relay:
the wire-frame codec, room-key normalization, snapshot persistence,
room registry and autosave scheduling, embedded from the Python sources
(simpleServer.py, crdtserver.py, server.py, websocket_server.py,
pycrdt_mock.py).
-/

namespace TopicMgr

/-- Byte strings are lists of naturals.  Every byte the real system
produces is below 256; the embedding keeps the exact bitwise operations
of the source. -/
abbrev Bytes := List Nat

/-! Bitwise facts used by the variable-length-integer proofs. -/

theorem and_mask7 (b : Nat) : b &&& 127 = b % 128 := by
  have h := Nat.and_pow_two_sub_one_eq_mod b 7
  norm_num at h
  exact h

theorem and_cont_eq_zero {b : Nat} (h : b < 128) : b &&& 128 = 0 := by
  apply Nat.eq_of_testBit_eq
  intro i
  rw [Nat.testBit_and, Nat.zero_testBit]
  by_cases h7 : i = 7
  · subst h7
    have hb : b.testBit 7 = false := Nat.testBit_lt_two_pow (by norm_num [h])
    simp [hb]
  · have h128 : (128 : Nat) = 2 ^ 7 := by norm_num
    have ht : (128 : Nat).testBit i = false := by
      rw [h128, Nat.testBit_two_pow]
      simp
      omega
    simp [ht]

theorem cont_testBit {a : Nat} (h : a < 128) : (a + 128).testBit 7 = true := by
  have he : a + 128 = 2 ^ 7 * 1 + a := by norm_num [Nat.add_comm]
  rw [he, Nat.testBit_mul_two_pow_add_eq]
  have ha : a.testBit 7 = false := Nat.testBit_lt_two_pow (by norm_num [h])
  simp [ha]

theorem cont_and_ne_zero {a : Nat} (h : a < 128) : (a + 128) &&& 128 ≠ 0 := by
  intro h0
  have hb := congrArg (fun v => Nat.testBit v 7) h0
  simp only [Nat.testBit_and, Nat.zero_testBit] at hb
  rw [cont_testBit h] at hb
  have h128 : (128 : Nat) = 2 ^ 7 := by norm_num
  rw [h128, Nat.testBit_two_pow] at hb
  simp at hb

theorem lor_shiftLeft_eq_add {a : Nat} (x k : Nat) (h : a < 2 ^ k) :
    a ||| x <<< k = a + x * 2 ^ k := by
  apply Nat.eq_of_testBit_eq
  intro i
  rw [Nat.testBit_lor, Nat.testBit_shiftLeft]
  rcases Nat.lt_or_ge i k with hik | hik
  · have hd : decide (i ≥ k) = false := by simp; omega
    rw [hd, Bool.false_and, Bool.or_false]
    rw [Nat.testBit_to_div_mod, Nat.testBit_to_div_mod]
    have e1 : x * 2 ^ k = x * 2 ^ (k - i) * 2 ^ i := by
      rw [Nat.mul_assoc, ← Nat.pow_add]
      congr 2
      omega
    have e2 : (a + x * 2 ^ k) / 2 ^ i = a / 2 ^ i + x * 2 ^ (k - i) := by
      rw [e1, Nat.add_mul_div_right _ _ (Nat.two_pow_pos i)]
    have e3 : x * 2 ^ (k - i) = x * 2 ^ (k - i - 1) * 2 := by
      rw [Nat.mul_assoc, ← Nat.pow_succ]
      congr 2
      omega
    rw [e2, e3, Nat.add_mul_mod_self_right]
  · have ha : a.testBit i = false :=
      Nat.testBit_lt_two_pow
        (Nat.lt_of_lt_of_le h (Nat.pow_le_pow_right (by norm_num) hik))
    rw [ha, Bool.false_or]
    have hd : decide (i ≥ k) = true := by simp; omega
    rw [hd, Bool.true_and]
    rw [Nat.testBit_to_div_mod, Nat.testBit_to_div_mod]
    have e1 : (2 : Nat) ^ i = 2 ^ k * 2 ^ (i - k) := by
      rw [← Nat.pow_add]
      congr 1
      omega
    have e2 : (a + x * 2 ^ k) / 2 ^ i = x / 2 ^ (i - k) := by
      rw [e1, ← Nat.div_div_eq_div_mul,
        Nat.add_mul_div_right _ _ (Nat.two_pow_pos k),
        Nat.div_eq_of_lt h, Nat.zero_add]
    rw [e2]

/-!
FrameCodec, decoding side: `read_varuint`, `read_varuint8array` and
`parse_ws_frame` from simpleServer.py.

The Python `read_varuint` loops reading `buf[pos]`, accumulating
`res |= (b & 0x7F) << shift` and advancing `pos` until a byte with the
high (continuation) bit clear; an access past the end of the buffer
raises IndexError, which `parse_ws_frame` catches.  The embedding walks
the suffix `buf[pos:]` structurally, returning `none` for the
IndexError, and the value together with the final position.
-/

/-- Loop body of `read_varuint` on the remaining bytes, returning the
decoded value and the number of bytes consumed, or `none` for a read
past the end of the buffer (Python IndexError). -/
def read_varuint_from : List Nat → Nat → Nat → Option (Nat × Nat)
  | [], _, _ => none
  | b :: rest, shift, res =>
    let res2 := res ||| (b &&& 127) <<< shift
    if b &&& 128 == 0 then
      some (res2, 1)
    else
      match read_varuint_from rest (shift + 7) res2 with
      | none => none
      | some (v, c) => some (v, c + 1)

/-- Embedding of `read_varuint(buf, pos)`: the decoded value and the
position just past the last byte read, or `none` when the loop runs off
the end of the buffer. -/
def read_varuint (buf : List Nat) (pos : Nat) : Option (Nat × Nat) :=
  match read_varuint_from (buf.drop pos) 0 0 with
  | none => none
  | some (v, c) => some (v, pos + c)

/-- Embedding of `read_varuint8array(buf, pos)`: a varuint length
followed by that many raw bytes.  The Python slice `buf[pos:pos+length]`
silently truncates at the end of the buffer, and so does
`(buf.drop pos).take length`. -/
def read_varuint8array (buf : List Nat) (pos : Nat) : Option (List Nat × Nat) :=
  match read_varuint buf pos with
  | none => none
  | some (len, p) => some ((buf.drop p).take len, p + len)

def SYNC : Nat := 0
def AWARENESS : Nat := 1
def AUTH : Nat := 2
def SYNC_STEP1 : Nat := 0
def SYNC_STEP2 : Nat := 1
def SYNC_UPDATE : Nat := 2

/-- Result dictionary of `parse_ws_frame`, one constructor per shape of
the returned dict.  `syncStep2` and `syncUpdate` carry the payload bytes
(the dict fields `update` and `update_len`, the latter being the length
of the carried bytes); `parseError` carries the `head_hex` bytes (the
first 32 bytes of the frame) and the `len` field. -/
inductive ParseInfo where
  | syncStep1 (stateVectorLen : Nat)
  | syncStep2 (update : List Nat)
  | syncUpdate (update : List Nat)
  | syncUnknown (sub : Nat)
  | awareness (payloadLen : Nat)
  | auth (payloadLen : Nat)
  | unknownType (msgType : Nat)
  | parseError (headBytes : List Nat) (len : Nat)
deriving DecidableEq

/-- Body of `parse_ws_frame` before the surrounding try/except: `none`
models an exception escaping the body (only the IndexError of
`read_varuint` can occur on byte-string input). -/
def parse_body (frame : List Nat) : Option ParseInfo :=
  match read_varuint frame 0 with
  | none => none
  | some (msgType, pos) =>
    if msgType = SYNC then
      match read_varuint frame pos with
      | none => none
      | some (sub, pos2) =>
        if sub = SYNC_STEP1 then
          match read_varuint8array frame pos2 with
          | none => none
          | some (sv, _) => some (.syncStep1 sv.length)
        else if sub = SYNC_STEP2 then
          match read_varuint8array frame pos2 with
          | none => none
          | some (upd, _) => some (.syncStep2 upd)
        else if sub = SYNC_UPDATE then
          match read_varuint8array frame pos2 with
          | none => none
          | some (upd, _) => some (.syncUpdate upd)
        else
          some (.syncUnknown sub)
    else if msgType = AWARENESS then
      match read_varuint8array frame pos with
      | none => none
      | some (payload, _) => some (.awareness payload.length)
    else if msgType = AUTH then
      match read_varuint8array frame pos with
      | none => none
      | some (payload, _) => some (.auth payload.length)
    else
      some (.unknownType msgType)

/-- Embedding of `parse_ws_frame`: the try/except wrapper turns any
exception of the body into the tagged parse-error dict carrying the
first 32 bytes of the frame and its length. -/
def parse_ws_frame (frame : List Nat) : ParseInfo :=
  match parse_body frame with
  | some info => info
  | none => .parseError (frame.take 32) frame.length

/-- Minimal unsigned variable-length-integer encoder.  Modelled from the
spec: the frame/varint writer lives in the y-websocket clients and the
pycrdt-websocket library, not under src/; the spec fixes the encoding as
7 data bits per byte, low group first, high bit of a byte set exactly
when more bytes follow, with no padding. -/
def writeVarUint (n : Nat) : List Nat :=
  if h : n < 128 then [n]
  else (n % 128 + 128) :: writeVarUint (n / 128)
termination_by n
decreasing_by
  exact Nat.div_lt_self (by omega) (by omega)

/-- Modelled from the spec: a SYNC frame with sub-kind UPDATE is the
varint outer kind 0, the varint sub-kind 2, the varint payload length,
then the raw payload bytes, with no padding. -/
def encodeSyncUpdate (P : Bytes) : Bytes :=
  writeVarUint SYNC ++ writeVarUint SYNC_UPDATE ++ writeVarUint P.length ++ P

/-- A redundantly padded varuint encoding of `n`: the minimal encoding
with the continuation bit forced on every byte, then `k` further
redundant continuation bytes `0x80`, then a terminating `0x00`. -/
def padVarUint (n k : Nat) : List Nat :=
  (writeVarUint n).map (fun b => b ||| 128) ++ List.replicate k 128 ++ [0]

theorem or_cont_eq_add {a : Nat} (h : a < 128) : a ||| 128 = a + 128 := by
  have h1 := lor_shiftLeft_eq_add 1 7 (show a < 2 ^ 7 by norm_num [h])
  have e : (1 : Nat) <<< 7 = 128 := by decide
  rw [e] at h1
  simpa using h1

theorem or_cont_idem {a : Nat} (h : a < 128) : (a + 128) ||| 128 = a + 128 := by
  rw [← or_cont_eq_add h, Nat.or_assoc, Nat.or_self, or_cont_eq_add h]

/-- Decoding a minimal varuint encoding placed at the read position:
the loop consumes exactly the encoding's bytes and produces its value,
folded into the accumulator. -/
theorem read_varuint_from_write (n : Nat) :
    ∀ (rest : List Nat) (shift res : Nat), res < 2 ^ shift →
      read_varuint_from (writeVarUint n ++ rest) shift res
        = some (res + n * 2 ^ shift, (writeVarUint n).length) := by
  induction n using Nat.strong_induction_on with
  | _ n ih =>
    intro rest shift res hres
    by_cases h : n < 128
    · unfold writeVarUint
      rw [dif_pos h]
      have hc : (n &&& 128 == 0) = true := by
        rw [beq_iff_eq]
        exact and_cont_eq_zero h
      have hm : n &&& 127 = n := by
        rw [and_mask7, Nat.mod_eq_of_lt h]
      have hlor := lor_shiftLeft_eq_add n shift hres
      simp only [List.cons_append, List.nil_append, read_varuint_from, hc,
        if_true, hm, hlor, List.length_cons, List.length_nil]
    · unfold writeVarUint
      rw [dif_neg h]
      have hmlt : n % 128 < 128 := Nat.mod_lt n (by omega)
      have hc : (n % 128 + 128 &&& 128 == 0) = false := by
        rw [beq_eq_false_iff_ne]
        exact cont_and_ne_zero hmlt
      have hm : n % 128 + 128 &&& 127 = n % 128 := by
        rw [and_mask7, Nat.add_mod_right, Nat.mod_eq_of_lt hmlt]
      have hlor := lor_shiftLeft_eq_add (n % 128) shift hres
      have h2 : (2 : Nat) ^ (shift + 7) = 2 ^ shift * 128 := by
        rw [Nat.pow_add]
      have hres2 : res + n % 128 * 2 ^ shift < 2 ^ (shift + 7) := by
        rw [h2]
        have hb : n % 128 * 2 ^ shift ≤ 127 * 2 ^ shift :=
          Nat.mul_le_mul_right (2 ^ shift) (by omega)
        omega
      have hrec := ih (n / 128) (Nat.div_lt_self (by omega) (by omega))
        rest (shift + 7) (res + n % 128 * 2 ^ shift) hres2
      have hval : res + n % 128 * 2 ^ shift + n / 128 * 2 ^ (shift + 7)
          = res + n * 2 ^ shift := by
        have hn : n % 128 + 128 * (n / 128) = n := Nat.mod_add_div n 128
        calc res + n % 128 * 2 ^ shift + n / 128 * 2 ^ (shift + 7)
            = res + (n % 128 + 128 * (n / 128)) * 2 ^ shift := by
              rw [h2]; ring
          _ = res + n * 2 ^ shift := by rw [hn]
      simp only [List.cons_append, read_varuint_from, hc, hm, hlor,
        Bool.false_eq_true, if_false, List.append_eq, List.length_cons]
      rw [hrec, hval]

/-- Reading a run of redundant continuation bytes `0x80` followed by a
terminating `0x00` leaves the accumulated value unchanged and consumes
the run. -/
theorem read_varuint_from_pad_tail (k : Nat) :
    ∀ (shift res : Nat),
      read_varuint_from (List.replicate k 128 ++ [0]) shift res
        = some (res, k + 1) := by
  induction k with
  | zero =>
    intro shift res
    simp [read_varuint_from]
  | succ k ih =>
    intro shift res
    have e0 : (128 : Nat) &&& 127 = 0 := by decide
    have e1 : ((128 : Nat) &&& 128 == 0) = false := by decide
    simp only [List.replicate_succ, List.cons_append, read_varuint_from,
      e0, e1, Nat.zero_shiftLeft, Nat.or_zero, Bool.false_eq_true,
      if_false, List.append_eq]
    rw [ih]

/-- Reading the continuation-marked bytes of a minimal encoding folds in
the same value and hands the loop on to the rest of the buffer. -/
theorem read_varuint_from_mapCont (n : Nat) :
    ∀ (rest : List Nat) (shift res : Nat), res < 2 ^ shift →
      read_varuint_from ((writeVarUint n).map (fun b => b ||| 128) ++ rest)
          shift res
        = match read_varuint_from rest
            (shift + 7 * (writeVarUint n).length)
            (res + n * 2 ^ shift) with
          | none => none
          | some (v, c) => some (v, c + (writeVarUint n).length) := by
  induction n using Nat.strong_induction_on with
  | _ n ih =>
    intro rest shift res hres
    by_cases h : n < 128
    · unfold writeVarUint
      rw [dif_pos h]
      have hb : n ||| 128 = n + 128 := or_cont_eq_add h
      have hc : (n + 128 &&& 128 == 0) = false := by
        rw [beq_eq_false_iff_ne]
        exact cont_and_ne_zero h
      have hm : n + 128 &&& 127 = n := by
        rw [and_mask7, Nat.add_mod_right, Nat.mod_eq_of_lt h]
      have hlor := lor_shiftLeft_eq_add n shift hres
      simp only [List.map_cons, List.map_nil, List.cons_append,
        List.append_eq, List.nil_append, read_varuint_from, hb, hc, hm,
        hlor, Bool.false_eq_true, if_false, List.length_cons,
        List.length_nil, Nat.zero_add, Nat.mul_one]
    · unfold writeVarUint
      rw [dif_neg h]
      have hmlt : n % 128 < 128 := Nat.mod_lt n (by omega)
      have hb : n % 128 + 128 ||| 128 = n % 128 + 128 := or_cont_idem hmlt
      have hc : (n % 128 + 128 &&& 128 == 0) = false := by
        rw [beq_eq_false_iff_ne]
        exact cont_and_ne_zero hmlt
      have hm : n % 128 + 128 &&& 127 = n % 128 := by
        rw [and_mask7, Nat.add_mod_right, Nat.mod_eq_of_lt hmlt]
      have hlor := lor_shiftLeft_eq_add (n % 128) shift hres
      have h2 : (2 : Nat) ^ (shift + 7) = 2 ^ shift * 128 := by
        rw [Nat.pow_add]
      have hres2 : res + n % 128 * 2 ^ shift < 2 ^ (shift + 7) := by
        rw [h2]
        have hbd : n % 128 * 2 ^ shift ≤ 127 * 2 ^ shift :=
          Nat.mul_le_mul_right (2 ^ shift) (by omega)
        omega
      have hrec := ih (n / 128) (Nat.div_lt_self (by omega) (by omega))
        rest (shift + 7) (res + n % 128 * 2 ^ shift) hres2
      have hval : res + n % 128 * 2 ^ shift + n / 128 * 2 ^ (shift + 7)
          = res + n * 2 ^ shift := by
        have hn : n % 128 + 128 * (n / 128) = n := Nat.mod_add_div n 128
        calc res + n % 128 * 2 ^ shift + n / 128 * 2 ^ (shift + 7)
            = res + (n % 128 + 128 * (n / 128)) * 2 ^ shift := by
              rw [h2]; ring
          _ = res + n * 2 ^ shift := by rw [hn]
      have hsh : shift + 7 + 7 * (writeVarUint (n / 128)).length
          = shift + 7 * ((writeVarUint (n / 128)).length + 1) := by
        ring
      simp only [List.map_cons, List.cons_append, read_varuint_from,
        hb, hc, hm, hlor, Bool.false_eq_true, if_false, List.append_eq,
        List.length_cons]
      rw [hrec, hval, hsh]
      cases hx : read_varuint_from rest
          (shift + 7 * ((writeVarUint (n / 128)).length + 1))
          (res + n * 2 ^ shift) with
      | none => rfl
      | some v => simp [Nat.add_assoc]

/-- Decoding from position 0 of a buffer that starts with a minimal
encoding yields the encoded value and the position just past it. -/
theorem read_varuint_encode (n : Nat) (rest : List Nat) :
    read_varuint (writeVarUint n ++ rest) 0
      = some (n, (writeVarUint n).length) := by
  unfold read_varuint
  rw [List.drop_zero, read_varuint_from_write n rest 0 0 (by norm_num)]
  simp

/-- Decoding a redundantly padded encoding still yields the encoded
value, consuming the whole padded run. -/
theorem read_varuint_pad (n k : Nat) :
    read_varuint (padVarUint n k) 0
      = some (n, (writeVarUint n).length + k + 1) := by
  unfold read_varuint padVarUint
  rw [List.drop_zero, List.append_assoc,
    read_varuint_from_mapCont n _ 0 0 (by norm_num),
    read_varuint_from_pad_tail k]
  simp
  omega

/-- A buffer consisting only of continuation bytes never terminates the
varuint loop inside the buffer: the read runs off the end. -/
theorem read_varuint_from_allCont (k : Nat) :
    ∀ (shift res : Nat),
      read_varuint_from (List.replicate k 128) shift res = none := by
  induction k with
  | zero =>
    intro shift res
    rfl
  | succ k ih =>
    intro shift res
    have e1 : ((128 : Nat) &&& 128 == 0) = false := by decide
    simp only [List.replicate_succ, read_varuint_from, e1,
      Bool.false_eq_true, if_false, ih]

/-!
RoomKeyCodec: `safe_room_id` from crdtserver.py.

The Python is
  s = name.strip().lstrip(chr(47))
  s = s.replace(backslash, slash).replace(slash, double-underscore)
  s = re.sub of any run of characters outside A-Za-z0-9 dot underscore
      hyphen by a single underscore
  return s[:128] or "room"
modelled below on strings as lists of characters.
-/

/-- Python str.strip with no argument: drop leading and trailing
whitespace. -/
def pyStrip (s : List Char) : List Char :=
  ((s.dropWhile Char.isWhitespace).reverse.dropWhile Char.isWhitespace).reverse

/-- Python str.lstrip applied to the slash character. -/
def pyLstripSlash (s : List Char) : List Char :=
  s.dropWhile (fun c => c == '/')

/-- Python str.replace of each backslash by a slash. -/
def replaceBackslash (s : List Char) : List Char :=
  s.map (fun c => if c == '\\' then '/' else c)

/-- Python str.replace of each slash by two underscores; one character
can expand to two. -/
def replaceSlash : List Char → List Char
  | [] => []
  | c :: rest =>
    if c == '/' then '_' :: '_' :: replaceSlash rest
    else c :: replaceSlash rest

/-- The character class A-Za-z0-9 dot underscore hyphen of the regular
expression in `safe_room_id`. -/
def allowedChar (c : Char) : Bool :=
  c.isAlpha || c.isDigit || c == '.' || c == '_' || c == '-'

/-- The re.sub of `safe_room_id`: every maximal run of characters
outside the class is replaced by one underscore.  The Bool argument
records whether the previous character was inside such a run, which
makes the run-collapsing automaton structurally recursive. -/
def reSubAux : Bool → List Char → List Char
  | _, [] => []
  | inRun, c :: rest =>
    if allowedChar c then c :: reSubAux false rest
    else if inRun then reSubAux true rest
    else '_' :: reSubAux true rest

def reSubDisallowed (s : List Char) : List Char :=
  reSubAux false s

/-- Embedding of `safe_room_id(name)` from crdtserver.py. -/
def safe_room_id (name : List Char) : List Char :=
  let s := reSubDisallowed (replaceSlash (replaceBackslash
    (pyLstripSlash (pyStrip name))))
  let t := s.take 128
  if t.isEmpty then String.toList "room" else t

theorem reSubAux_allowed (s : List Char) :
    ∀ (b : Bool) (c : Char), c ∈ reSubAux b s → allowedChar c = true := by
  induction s with
  | nil =>
    intro b c hc
    simp [reSubAux] at hc
  | cons d rest ih =>
    intro b c hc
    by_cases hd : allowedChar d
    · rw [reSubAux, if_pos hd] at hc
      rcases List.mem_cons.mp hc with h1 | h1
      · rw [h1]; exact hd
      · exact ih false c h1
    · rw [reSubAux, if_neg hd] at hc
      by_cases hb : b = true
      · rw [hb, if_pos rfl] at hc
        exact ih true c hc
      · have hb2 : b = false := by
          cases b
          · rfl
          · exact absurd rfl hb
        rw [hb2] at hc
        simp only [Bool.false_eq_true, if_false] at hc
        rcases List.mem_cons.mp hc with h1 | h1
        · rw [h1]; rfl
        · exact ih true c h1

/-- Every character of a normalized room key lies in the allowed
class. -/
theorem safe_room_id_chars (name : List Char) :
    ∀ c ∈ safe_room_id name, allowedChar c = true := by
  intro c hc
  simp only [safe_room_id] at hc
  by_cases he : (reSubDisallowed (replaceSlash (replaceBackslash
      (pyLstripSlash (pyStrip name))))).take 128 |>.isEmpty
  · rw [if_pos he] at hc
    have hall : ∀ x ∈ String.toList "room", allowedChar x = true := by decide
    exact hall c hc
  · rw [if_neg he] at hc
    exact reSubAux_allowed _ false c (List.take_subset 128 _ hc)

/-- A normalized room key is never empty. -/
theorem safe_room_id_ne_nil (name : List Char) : safe_room_id name ≠ [] := by
  simp only [safe_room_id]
  by_cases he : (reSubDisallowed (replaceSlash (replaceBackslash
      (pyLstripSlash (pyStrip name))))).take 128 |>.isEmpty
  · rw [if_pos he]
    decide
  · rw [if_neg he]
    intro h
    rw [h] at he
    exact he rfl

/-- A normalized room key is at most 128 characters long. -/
theorem safe_room_id_len (name : List Char) :
    (safe_room_id name).length ≤ 128 := by
  simp only [safe_room_id]
  by_cases he : (reSubDisallowed (replaceSlash (replaceBackslash
      (pyLstripSlash (pyStrip name))))).take 128 |>.isEmpty
  · rw [if_pos he]
    decide
  · rw [if_neg he]
    have h := List.length_take_le 128 (reSubDisallowed (replaceSlash
      (replaceBackslash (pyLstripSlash (pyStrip name)))))
    omega

/-!
SnapshotStore: the file-backed snapshot persistence of simpleServer.py
(`_room_to_filename`, `save_room_snapshot`, `load_room_snapshot_bytes`)
and the direct-write `_save_document` of server.py/websocket_server.py.
The snapshot directory is an association list from file names (relative
to the data directory) to file entries.
-/

/-- File contents with a readability flag: reading an entry whose flag
is false models an OSError raised by `read_bytes`. -/
structure FileEntry where
  content : Bytes
  readable : Bool
deriving DecidableEq

def alookup {β : Type} : List (List Char × β) → List Char → Option β
  | [], _ => none
  | (q, v) :: rest, p => if q = p then some v else alookup rest p

def aerase {β : Type} : List (List Char × β) → List Char → List (List Char × β)
  | [], _ => []
  | (q, v) :: rest, p =>
    if q = p then aerase rest p else (q, v) :: aerase rest p

/-- Map update with the one-value-per-key discipline of a Python dict
or of a directory of files. -/
def aset {β : Type} (m : List (List Char × β)) (p : List Char) (v : β) :
    List (List Char × β) :=
  (p, v) :: aerase m p

abbrev FS := List (List Char × FileEntry)

/-- Atomic `os.replace(src, dst)`: afterwards dst holds what src held
and src is gone. -/
def fsReplace (fs : FS) (src dst : List Char) : FS :=
  match alookup fs src with
  | some e => aset (aerase fs src) dst e
  | none => fs

/-- Embedding of `_room_to_filename` (simpleServer.py): each slash of
the room name becomes two underscores, and the `.bin` extension is
appended. -/
def room_to_filename (room : List Char) : List Char :=
  replaceSlash room ++ String.toList ".bin"

/-- Temporary path of `save_room_snapshot`: `with_suffix(".bin.tmp")` on
`<safe>.bin` always yields `<safe>.bin.tmp`. -/
def room_tmp_filename (room : List Char) : List Char :=
  replaceSlash room ++ String.toList ".bin.tmp"

/-- Failure injection for `save_room_snapshot`: a successful run, a
`write_bytes` that raises after `k` bytes reached the temporary file, or
an `os.replace` that raises. -/
inductive SaveFault where
  | ok
  | writeFail (k : Nat)
  | replaceFail
deriving DecidableEq

/-- The sequence of directory states a reader or a crash can observe
while `save_room_snapshot(room)` writes `data` starting from `fs`: the
initial state, the truncated temporary file, every prefix of the
temporary file while `write_bytes` progresses, then either the atomic
`os.replace` over the destination or, on a fault, the cleanup unlink of
the temporary file performed by the exception handler. -/
def save_room_snapshot_trace (fs : FS) (room : List Char) (data : Bytes)
    (fault : SaveFault) : List FS :=
  let tmp := room_tmp_filename room
  let dst := room_to_filename room
  match fault with
  | .ok =>
    fs :: (List.range (data.length + 1)).map
        (fun k => aset fs tmp ⟨data.take k, true⟩)
      ++ [fsReplace (aset fs tmp ⟨data, true⟩) tmp dst]
  | .writeFail k =>
    fs :: (List.range (min k data.length + 1)).map
        (fun j => aset fs tmp ⟨data.take j, true⟩)
      ++ [aerase (aset fs tmp ⟨data.take (min k data.length), true⟩) tmp]
  | .replaceFail =>
    fs :: (List.range (data.length + 1)).map
        (fun k => aset fs tmp ⟨data.take k, true⟩)
      ++ [aerase (aset fs tmp ⟨data, true⟩) tmp]

/-- Final directory state of `save_room_snapshot` together with the
reported outcome (success log or warning log); the Python function
catches every exception and returns normally in all cases. -/
def save_room_snapshot (fs : FS) (room : List Char) (data : Bytes)
    (fault : SaveFault) : FS × Bool :=
  let tmp := room_tmp_filename room
  let dst := room_to_filename room
  match fault with
  | .ok => (fsReplace (aset fs tmp ⟨data, true⟩) tmp dst, true)
  | .writeFail k =>
    (aerase (aset fs tmp ⟨data.take (min k data.length), true⟩) tmp, false)
  | .replaceFail => (aerase (aset fs tmp ⟨data, true⟩) tmp, false)

/-- Embedding of `load_room_snapshot_bytes`: None when the file does not
exist; the raw bytes when it is readable; a read error is caught, a
warning is logged, and None is returned as well. -/
def load_room_snapshot_bytes (fs : FS) (room : List Char) : Option Bytes :=
  match alookup fs (room_to_filename room) with
  | none => none
  | some e => if e.readable then some e.content else none

/-!
Room persistence of server.py and websocket_server.py: `FileBackedYRoom`
with `_save_document` and the periodic `_auto_save` and `_watch_changes`
loops.
-/

/-- Persistence-relevant state of `FileBackedYRoom`: the raw room name
and the bytes `self.ydoc.get_state()` currently returns (the engine is
opaque). -/
structure RoomP where
  room_name : List Char
  stateVec : Bytes
deriving DecidableEq

/-- The room file `DATA_DIR / room_name.ys`. -/
def room_file_path (r : RoomP) : List Char :=
  r.room_name ++ String.toList ".ys"

/-- Observable directory states during `_save_document`: `open(path,
"wb")` truncates the destination in place and the write then fills it;
no temporary file is involved.  When the state bytes are falsy nothing
is written. -/
def save_document_trace (r : RoomP) (fs : FS) : List FS :=
  if r.stateVec.isEmpty then [fs]
  else fs :: (List.range (r.stateVec.length + 1)).map
    (fun k => aset fs (room_file_path r) ⟨r.stateVec.take k, true⟩)

/-- Failure injection for one `_save_document` call: either the write
completes, or `f.write(state)` raises after `k` bytes reached the file.
The raised error is caught and logged by the except branch. -/
inductive WriteFault where
  | ok
  | failAt (k : Nat)
deriving DecidableEq

/-- Outcome of one `_save_document` call: the new directory state and
whether the full state was written.  When the state bytes are falsy
nothing is opened.  Otherwise `open(path, "wb")` truncates the
destination in place before the write, so a write that raises after `k`
bytes leaves the destination holding the truncated first `k` bytes of
the state — the error is caught and logged, but the truncation is not
undone (consistent with `save_document_trace`). -/
def save_document (r : RoomP) (fs : FS) (fault : WriteFault) : FS × Bool :=
  if r.stateVec.isEmpty then (fs, false)
  else
    match fault with
    | .ok => (aset fs (room_file_path r) ⟨r.stateVec, true⟩, true)
    | .failAt k =>
      (aset fs (room_file_path r)
        ⟨r.stateVec.take (min k r.stateVec.length), true⟩, false)

/-- The periodic `_auto_save` and `_watch_changes` loops across a list
of 5-second ticks with the given per-tick write outcomes, during a
period in which no update arrives: the loop calls `_save_document`
unconditionally on every tick.  Returns the final directory state and,
per tick, whether the full state was written. -/
def auto_save_run (r : RoomP) (fs : FS) : List WriteFault → FS × List Bool
  | [] => (fs, [])
  | f :: rest =>
    let s := save_document r fs f
    let t := auto_save_run r s.1 rest
    (t.1, s.2 :: t.2)

/-!
RoomRegistry: `_custom_get_room` of crdtserver.py,
`CRDTWebSocketServer.get_room` of server.py/websocket_server.py, the
underlying get-or-create of pycrdt_mock.py, and the autoload wrapper of
simpleServer.py.
-/

/-- The fields of the YRoom constructed by `_custom_get_room`: an
instance id distinguishing engine instances, the attached ystore file,
and the ready flag; the document itself is opaque. -/
structure YRoomC where
  id : Nat
  ystoreFile : List Char
  ready : Bool
deriving DecidableEq

structure ServerC where
  rooms : List (List Char × YRoomC)
  nextId : Nat
deriving DecidableEq

/-- Embedding of `_custom_get_room` (crdtserver.py): normalize the name
with `safe_room_id`, return the registered room when the key is present,
otherwise construct a room attached to the ystore file `<key>.ystore`,
register it under the key, start it, and return it. -/
def custom_get_room (st : ServerC) (name : List Char) : YRoomC × ServerC :=
  let key := safe_room_id name
  match alookup st.rooms key with
  | some r => (r, st)
  | none =>
    let room : YRoomC := ⟨st.nextId, key ++ String.toList ".ystore", true⟩
    (room, ⟨aset st.rooms key room, st.nextId + 1⟩)

/-- Room instances as created by `CRDTWebSocketServer.get_room` and the
mock get-or-create: the id distinguishes instances, the engine records
the updates applied to the room's ydoc. -/
structure YRoomS where
  id : Nat
  engine : List Bytes
deriving DecidableEq

structure ServerS where
  rooms : List (List Char × YRoomS)
  nextId : Nat
deriving DecidableEq

/-- Embedding of `CRDTWebSocketServer.get_room` (server.py and
websocket_server.py): the map is keyed by the raw `room_name`, with no
normalization, and a missing room is created with an empty document. -/
def server_get_room (st : ServerS) (room_name : List Char) :
    YRoomS × ServerS :=
  match alookup st.rooms room_name with
  | some r => (r, st)
  | none =>
    let room : YRoomS := ⟨st.nextId, []⟩
    (room, ⟨aset st.rooms room_name room, st.nextId + 1⟩)

/-- Embedding of `WebsocketServer.get_room` from pycrdt_mock.py, the
repository's stand-in for the library get-or-create wrapped by the
autoload patch: keyed by the raw name, a missing room is created with a
fresh empty document. -/
def mock_get_room (st : ServerS) (name : List Char) : YRoomS × ServerS :=
  match alookup st.rooms name with
  | some r => (r, st)
  | none =>
    let room : YRoomS := ⟨st.nextId, []⟩
    (room, ⟨aset st.rooms name room, st.nextId + 1⟩)

/-- Embedding of the synchronous `patched` get_room installed by
`patch_ws_server_autoload` (simpleServer.py): remember whether the path
already existed, call the original get-or-create, and only for a newly
created room load the snapshot and apply it to the room's ydoc when the
loaded bytes are truthy (Python `if data:` is false both for a missing
snapshot and for empty bytes). -/
def patched_get_room (st : ServerS) (fs : FS) (path : List Char) :
    YRoomS × ServerS :=
  let existed := (alookup st.rooms path).isSome
  let rs := mock_get_room st path
  if existed then rs
  else
    match load_room_snapshot_bytes fs path with
    | none => rs
    | some d =>
      if d.isEmpty then rs
      else
        let seeded : YRoomS := ⟨rs.1.id, rs.1.engine ++ [d]⟩
        (seeded, ⟨aset rs.2.rooms path seeded, rs.2.nextId⟩)

/-!
SyncSession persistence policy: the decision inside `WSAdapter.recv`
(simpleServer.py) of whether a received frame triggers
`save_room_snapshot`, as configured by the websocket endpoint (log_wire
and log_delta set, parse and delta functions wired).
-/

/-- Embedding of the should_persist computation of `WSAdapter.recv`.
`deltaOk` is whether the delta extraction `humanize_update_room`
returned without raising, and `deltas` the list of observed document
deltas (entries opaque).  A sync/update frame always persists.  For
sync/step2, when the payload is empty the conjunction short-circuits to
False; when the payload is non-empty but the extraction raised, the
reference to the unbound `deltas` raises a NameError which the
surrounding handler catches, so no save happens; otherwise the frame
persists exactly when a non-empty delta was observed.  Every other
classification skips persistence. -/
def recv_should_persist (info : ParseInfo) (deltaOk : Bool)
    (deltas : List Unit) : Bool :=
  match info with
  | .syncUpdate _ => true
  | .syncStep2 upd =>
    decide (0 < upd.length) && (deltaOk && !deltas.isEmpty)
  | _ => false

/-! Association-list facts. -/

theorem alookup_aset_self {β : Type} (m : List (List Char × β))
    (p : List Char) (v : β) : alookup (aset m p v) p = some v := by
  simp [aset, alookup]

theorem alookup_aerase {β : Type} (p q : List Char) (h : q ≠ p) :
    ∀ (m : List (List Char × β)), alookup (aerase m p) q = alookup m q := by
  intro m
  induction m with
  | nil => rfl
  | cons kv rest ih =>
    obtain ⟨k, v⟩ := kv
    by_cases hk : k = p
    · have hkq : k ≠ q := by
        rw [hk]
        exact fun hh => h hh.symm
      simp only [aerase, if_pos hk, alookup, if_neg hkq, ih]
    · simp only [aerase, if_neg hk, alookup]
      by_cases hkq : k = q
      · rw [if_pos hkq, if_pos hkq]
      · rw [if_neg hkq, if_neg hkq, ih]

theorem alookup_aerase_self {β : Type} (p : List Char) :
    ∀ (m : List (List Char × β)), alookup (aerase m p) p = none := by
  intro m
  induction m with
  | nil => rfl
  | cons kv rest ih =>
    obtain ⟨k, v⟩ := kv
    by_cases hk : k = p
    · simp only [aerase, if_pos hk, ih]
    · simp only [aerase, if_neg hk, alookup, if_neg hk, ih]

theorem alookup_aset_ne {β : Type} (m : List (List Char × β))
    (p q : List Char) (v : β) (h : q ≠ p) :
    alookup (aset m p v) q = alookup m q := by
  have hpq : p ≠ q := fun hh => h hh.symm
  simp only [aset, alookup, if_neg hpq]
  exact alookup_aerase p q h m

/-- The temporary file of a snapshot save never collides with the
destination file. -/
theorem room_tmp_ne_dst (room : List Char) :
    room_tmp_filename room ≠ room_to_filename room := by
  intro h
  have h1 := congrArg List.length h
  rw [room_tmp_filename, room_to_filename, List.length_append,
    List.length_append] at h1
  have e1 : (String.toList ".bin.tmp").length = 8 := rfl
  have e2 : (String.toList ".bin").length = 4 := rfl
  omega

/-- Atomicity of `save_room_snapshot`: every observable intermediate
directory state shows the destination either with its previous content
or with the complete new snapshot. -/
theorem save_room_snapshot_atomic (fs : FS) (room : List Char)
    (data : Bytes) (fault : SaveFault) (s : FS)
    (hs : s ∈ save_room_snapshot_trace fs room data fault) :
    alookup s (room_to_filename room) = alookup fs (room_to_filename room)
    ∨ alookup s (room_to_filename room) = some ⟨data, true⟩ := by
  have hne : room_to_filename room ≠ room_tmp_filename room :=
    fun hh => room_tmp_ne_dst room hh.symm
  have hset : ∀ (e : FileEntry),
      alookup (aset fs (room_tmp_filename room) e) (room_to_filename room)
        = alookup fs (room_to_filename room) :=
    fun e => alookup_aset_ne fs (room_tmp_filename room)
      (room_to_filename room) e hne
  cases fault with
  | ok =>
    simp only [save_room_snapshot_trace, List.mem_cons, List.mem_append,
      List.mem_map, List.mem_range, List.mem_singleton] at hs
    rcases hs with (rfl | ⟨k, hk, rfl⟩) | (rfl | h0)
    · exact Or.inl rfl
    · exact Or.inl (hset _)
    · refine Or.inr ?_
      simp only [fsReplace, alookup_aset_self]
    · simp at h0
  | writeFail k =>
    simp only [save_room_snapshot_trace, List.mem_cons, List.mem_append,
      List.mem_map, List.mem_range, List.mem_singleton] at hs
    rcases hs with (rfl | ⟨j, hj, rfl⟩) | (rfl | h0)
    · exact Or.inl rfl
    · exact Or.inl (hset _)
    · refine Or.inl ?_
      rw [alookup_aerase _ _ hne]
      exact hset _
    · simp at h0
  | replaceFail =>
    simp only [save_room_snapshot_trace, List.mem_cons, List.mem_append,
      List.mem_map, List.mem_range, List.mem_singleton] at hs
    rcases hs with (rfl | ⟨k, hk, rfl⟩) | (rfl | h0)
    · exact Or.inl rfl
    · exact Or.inl (hset _)
    · refine Or.inl ?_
      rw [alookup_aerase _ _ hne]
      exact hset _
    · simp at h0

/-- Final state of a failed save: the outcome is reported as a failure,
no temporary file remains, and the destination is untouched. -/
theorem save_room_snapshot_fail (fs : FS) (room : List Char)
    (data : Bytes) (fault : SaveFault) (hf : fault ≠ .ok) :
    (save_room_snapshot fs room data fault).2 = false
    ∧ alookup (save_room_snapshot fs room data fault).1
        (room_tmp_filename room) = none
    ∧ alookup (save_room_snapshot fs room data fault).1
        (room_to_filename room)
      = alookup fs (room_to_filename room) := by
  have hne : room_to_filename room ≠ room_tmp_filename room :=
    fun hh => room_tmp_ne_dst room hh.symm
  cases fault with
  | ok => exact absurd rfl hf
  | writeFail k =>
    refine ⟨rfl, ?_, ?_⟩
    · simp only [save_room_snapshot]
      exact alookup_aerase_self _ _
    · simp only [save_room_snapshot]
      rw [alookup_aerase _ _ hne, alookup_aset_ne _ _ _ _ hne]
  | replaceFail =>
    refine ⟨rfl, ?_, ?_⟩
    · simp only [save_room_snapshot]
      exact alookup_aerase_self _ _
    · simp only [save_room_snapshot]
      rw [alookup_aerase _ _ hne, alookup_aset_ne _ _ _ _ hne]

/-- Final state of a successful save: the destination holds exactly the
new snapshot, readable, the temporary file is gone, and success is
reported. -/
theorem save_room_snapshot_ok (fs : FS) (room : List Char) (data : Bytes) :
    (save_room_snapshot fs room data .ok).2 = true
    ∧ alookup (save_room_snapshot fs room data .ok).1
        (room_to_filename room) = some ⟨data, true⟩
    ∧ alookup (save_room_snapshot fs room data .ok).1
        (room_tmp_filename room) = none := by
  have hne : room_to_filename room ≠ room_tmp_filename room :=
    fun hh => room_tmp_ne_dst room hh.symm
  have hne2 : room_tmp_filename room ≠ room_to_filename room :=
    room_tmp_ne_dst room
  refine ⟨rfl, ?_, ?_⟩
  · simp only [save_room_snapshot, fsReplace, alookup_aset_self]
  · simp only [save_room_snapshot, fsReplace, alookup_aset_self]
    rw [alookup_aset_ne _ _ _ _ hne2]
    exact alookup_aerase_self _ _

/-! Helper facts for the autosave claims. -/

theorem save_document_flag (r : RoomP) (fs : FS) (f : WriteFault) :
    (save_document r fs f).2 = (!r.stateVec.isEmpty && f == .ok) := by
  unfold save_document
  by_cases h : r.stateVec.isEmpty
  · rw [if_pos h, h]
    rfl
  · have hb : r.stateVec.isEmpty = false := by
      cases hval : r.stateVec.isEmpty
      · rfl
      · exact absurd hval h
    rw [if_neg h, hb]
    cases f
    · rfl
    · rfl

/-!
The claims.
-/

/-- C1 counterexample: the claim quantifies over every invocation of
snapshot save, but `_save_document` of server.py (and
websocket_server.py) opens the destination with mode wb and writes in
place, with no temporary file and no rename.  Starting from a directory
in which room r's file holds the old snapshot 0x01 and writing the new
state 0x02, the truncation step exposes a state in which the file is
neither the complete old snapshot nor the complete new one. -/
theorem C1_counterexample :
    ¬ (∀ s ∈ save_document_trace ⟨String.toList "r", [2]⟩
          [(room_file_path ⟨String.toList "r", [2]⟩, ⟨[1], true⟩)],
        alookup s (room_file_path ⟨String.toList "r", [2]⟩)
            = some ⟨[1], true⟩
        ∨ alookup s (room_file_path ⟨String.toList "r", [2]⟩)
            = some ⟨[2], true⟩) := by
  decide

/-- C1 (amended): simpleServer's `save_room_snapshot` does follow the
write-to-temp-then-atomic-rename discipline: along every observable
state of a save, faulted or not, the destination file holds either its
previous content or the complete new snapshot; a successful save ends
with the destination holding exactly the new bytes and no temporary
file; a failed save reports failure without raising, removes the
temporary file and leaves the destination untouched.  The
`_save_document` variant of server.py writes the destination directly
and is exempt from the atomicity guarantee (see the counterexample). -/
theorem C1_amended_save_discipline :
    (∀ (fs : FS) (room : List Char) (data : Bytes) (fault : SaveFault)
        (s : FS), s ∈ save_room_snapshot_trace fs room data fault →
        alookup s (room_to_filename room) = alookup fs (room_to_filename room)
        ∨ alookup s (room_to_filename room) = some ⟨data, true⟩)
    ∧ (∀ (fs : FS) (room : List Char) (data : Bytes),
        (save_room_snapshot fs room data .ok).2 = true
        ∧ alookup (save_room_snapshot fs room data .ok).1
            (room_to_filename room) = some ⟨data, true⟩
        ∧ alookup (save_room_snapshot fs room data .ok).1
            (room_tmp_filename room) = none)
    ∧ (∀ (fs : FS) (room : List Char) (data : Bytes) (fault : SaveFault),
        fault ≠ .ok →
        (save_room_snapshot fs room data fault).2 = false
        ∧ alookup (save_room_snapshot fs room data fault).1
            (room_tmp_filename room) = none
        ∧ alookup (save_room_snapshot fs room data fault).1
            (room_to_filename room)
          = alookup fs (room_to_filename room)) :=
  ⟨save_room_snapshot_atomic, save_room_snapshot_ok, save_room_snapshot_fail⟩

/-- C1 witness: the amended theorem applied to a concrete save of the
byte 0x05 for room r, on the initial trace state and on a failing
rename. -/
theorem C1_witness :
    (([] : FS) ∈ save_room_snapshot_trace [] (String.toList "r") [5] .ok
      ∧ (alookup ([] : FS) (room_to_filename (String.toList "r"))
          = alookup ([] : FS) (room_to_filename (String.toList "r"))
        ∨ alookup ([] : FS) (room_to_filename (String.toList "r"))
          = some ⟨[5], true⟩))
    ∧ (SaveFault.replaceFail ≠ SaveFault.ok
      ∧ (save_room_snapshot [] (String.toList "r") [5] .replaceFail).2
          = false) :=
  ⟨⟨by decide,
      C1_amended_save_discipline.1 [] (String.toList "r") [5] .ok []
        (by decide)⟩,
    ⟨by decide,
      (C1_amended_save_discipline.2.2 [] (String.toList "r") [5]
        .replaceFail (by decide)).1⟩⟩

/-- C2 counterexample: a read error is not surfaced distinctly from an
absent snapshot.  `load_room_snapshot_bytes` returns None for a missing
file, and its exception handler also returns None when reading an
existing file fails, so the two cases yield the same result value. -/
theorem C2_counterexample :
    load_room_snapshot_bytes
        [(room_to_filename (String.toList "r"), ⟨[7], false⟩)]
        (String.toList "r") = none
    ∧ load_room_snapshot_bytes [] (String.toList "r") = none := by
  decide

/-- C2 (amended): `load_room_snapshot_bytes` returns the stored raw
bytes when the file exists and is readable — in particular a successful
save followed by a load round-trips — and returns None when no file
exists for the key; a read error is logged but also returns None,
indistinguishable from absence in the returned value. -/
theorem C2_amended_load :
    (∀ (fs : FS) (room : List Char) (data : Bytes),
        load_room_snapshot_bytes (save_room_snapshot fs room data .ok).1
          room = some data)
    ∧ (∀ (fs : FS) (room : List Char),
        alookup fs (room_to_filename room) = none →
        load_room_snapshot_bytes fs room = none)
    ∧ (∀ (fs : FS) (room : List Char) (e : FileEntry),
        alookup fs (room_to_filename room) = some e → e.readable = false →
        load_room_snapshot_bytes fs room = none)
    ∧ (∀ (fs : FS) (room : List Char) (e : FileEntry),
        alookup fs (room_to_filename room) = some e → e.readable = true →
        load_room_snapshot_bytes fs room = some e.content) := by
  refine ⟨?_, ?_, ?_, ?_⟩
  · intro fs room data
    have hok := save_room_snapshot_ok fs room data
    simp only [load_room_snapshot_bytes, hok.2.1]
    rfl
  · intro fs room h
    simp only [load_room_snapshot_bytes, h]
  · intro fs room e h hr
    simp only [load_room_snapshot_bytes, h, hr]
    rfl
  · intro fs room e h hr
    simp only [load_room_snapshot_bytes, h, hr]
    rfl

/-- C2 witness: the amended theorem applied to the empty directory
(absent case) and to a save-then-load of the byte 0x09. -/
theorem C2_witness :
    (alookup ([] : FS) (room_to_filename (String.toList "r")) = none
      ∧ load_room_snapshot_bytes [] (String.toList "r") = none)
    ∧ load_room_snapshot_bytes
        (save_room_snapshot [] (String.toList "r") [9] .ok).1
        (String.toList "r") = some [9] :=
  ⟨⟨by decide, C2_amended_load.2.1 [] (String.toList "r") (by decide)⟩,
    C2_amended_load.1 [] (String.toList "r") [9]⟩

/-- C3 counterexample: `CRDTWebSocketServer.get_room` (server.py,
websocket_server.py) keys the room map by the raw name with no
normalization, so the names x and /x — which normalize to the same key
under `safe_room_id` — yield two distinct Room instances. -/
theorem C3_counterexample :
    safe_room_id (String.toList "x") = safe_room_id (String.toList "/x")
    ∧ (server_get_room (server_get_room ⟨[], 0⟩ (String.toList "x")).2
        (String.toList "/x")).1
      ≠ (server_get_room ⟨[], 0⟩ (String.toList "x")).1 := by
  decide

/-- C3 (amended): the crdtserver variant `_custom_get_room` normalizes
the name via `safe_room_id` and keys the map by the normalized key: a
hit returns the registered room with the registry unchanged; a miss
creates exactly one room, attached to the key's ystore file, registered
under the key, touching no other key; two successive calls whose names
normalize to the same key return the same single room instance.  The
autoload wrapper of simpleServer.py seeds a newly created room's engine
from the stored snapshot bytes exactly when a truthy (non-empty)
snapshot exists, else leaves it empty.  The server.py `get_room` keys by
the raw, unnormalized name (see the counterexample). -/
theorem C3_amended_registry :
    (∀ (st : ServerC) (name : List Char) (r : YRoomC),
        alookup st.rooms (safe_room_id name) = some r →
        custom_get_room st name = (r, st))
    ∧ (∀ (st : ServerC) (name : List Char),
        alookup st.rooms (safe_room_id name) = none →
        (custom_get_room st name).1.id = st.nextId
        ∧ alookup (custom_get_room st name).2.rooms (safe_room_id name)
            = some (custom_get_room st name).1
        ∧ (∀ q, q ≠ safe_room_id name →
            alookup (custom_get_room st name).2.rooms q
              = alookup st.rooms q)
        ∧ (custom_get_room st name).1.ystoreFile
            = safe_room_id name ++ String.toList ".ystore")
    ∧ (∀ (st : ServerC) (n1 n2 : List Char),
        safe_room_id n1 = safe_room_id n2 →
        (custom_get_room (custom_get_room st n1).2 n2).1
            = (custom_get_room st n1).1
        ∧ (custom_get_room (custom_get_room st n1).2 n2).2
            = (custom_get_room st n1).2)
    ∧ (∀ (st : ServerS) (fs : FS) (path : List Char),
        alookup st.rooms path = none →
        ((load_room_snapshot_bytes fs path = none
            ∨ load_room_snapshot_bytes fs path = some []) →
          (patched_get_room st fs path).1.engine = [])
        ∧ (∀ d, load_room_snapshot_bytes fs path = some d → d ≠ [] →
            (patched_get_room st fs path).1.engine = [d])) := by
  refine ⟨?_, ?_, ?_, ?_⟩
  · intro st name r h
    simp only [custom_get_room, h]
  · intro st name h
    refine ⟨?_, ?_, ?_, ?_⟩
    · simp only [custom_get_room, h]
    · simp only [custom_get_room, h]
      exact alookup_aset_self _ _ _
    · intro q hq
      simp only [custom_get_room, h]
      exact alookup_aset_ne _ _ _ _ hq
    · simp only [custom_get_room, h]
  · intro st n1 n2 heq
    cases hl : alookup st.rooms (safe_room_id n1) with
    | some r =>
      have hl2 : alookup st.rooms (safe_room_id n2) = some r := by
        rw [← heq]
        exact hl
      constructor
      · simp [custom_get_room, hl, hl2]
      · simp [custom_get_room, hl, hl2]
    | none =>
      constructor
      · simp [custom_get_room, hl, ← heq, alookup_aset_self]
      · simp [custom_get_room, hl, ← heq, alookup_aset_self]
  · intro st fs path h
    have hexist : (alookup st.rooms path).isSome = false := by
      rw [h]
      rfl
    constructor
    · intro hload
      rcases hload with hl | hl
      · simp [patched_get_room, mock_get_room, h, hexist, hl]
      · simp [patched_get_room, mock_get_room, h, hexist, hl]
    · intro d hd hne
      have hne2 : d.isEmpty = false := by
        cases d
        · exact absurd rfl hne
        · rfl
      simp [patched_get_room, mock_get_room, h, hexist, hd, hne2]

/-- C3 witness: two names normalizing to the same key return the very
same room instance of the crdtserver registry, and seeding applies a
stored non-empty snapshot to a freshly created simpleServer room. -/
theorem C3_witness :
    (safe_room_id (String.toList "x") = safe_room_id (String.toList "/x")
      ∧ (custom_get_room (custom_get_room ⟨[], 0⟩ (String.toList "x")).2
          (String.toList "/x")).1
        = (custom_get_room ⟨[], 0⟩ (String.toList "x")).1)
    ∧ (alookup (([] : List (List Char × YRoomS))) (String.toList "x") = none
      ∧ (patched_get_room ⟨[], 0⟩
          [(room_to_filename (String.toList "x"), ⟨[3], true⟩)]
          (String.toList "x")).1.engine = [[3]]) :=
  ⟨⟨by decide,
      (C3_amended_registry.2.2.1 ⟨[], 0⟩ (String.toList "x")
        (String.toList "/x") (by decide)).1⟩,
    ⟨by decide,
      (C3_amended_registry.2.2.2 ⟨[], 0⟩
          [(room_to_filename (String.toList "x"), ⟨[3], true⟩)]
          (String.toList "x") (by decide)).2 [3] (by decide)
        (by decide)⟩⟩

/-- C4 counterexample: `FileBackedYRoom` has no dirty flag, and the
autosave loop of server.py and websocket_server.py saves on every tick
whenever the encoded state is non-empty: two consecutive ticks with no
update in between — the room already persisted, nothing changed — both
perform a save, contradicting the claim that a save happens only while
the room is dirty. -/
theorem C4_counterexample :
    (auto_save_run ⟨String.toList "r", [1]⟩
        [(room_file_path ⟨String.toList "r", [1]⟩, ⟨[1], true⟩)]
        [.ok, .ok]).2 = [true, true] := by
  decide

/-- C4 (amended): the periodic autosave loop (fixed 5-second interval)
calls `_save_document` unconditionally on every tick; a write is
attempted exactly when the document state is non-empty, independent of
whether any update arrived, and the full state is written exactly when
the write also does not fail.  A write error is caught, so the loop
continues, but because the destination was already truncated by
`open(path, "wb")`, a write failing after `k` bytes leaves the
destination holding only the first `k` bytes of the state; the next tick
simply tries again, and a failed tick followed by a successful one
leaves the room file holding the full state, the same as a single
successful tick.  No dirty flag exists. -/
theorem C4_amended_autosave :
    (∀ (r : RoomP) (fs : FS) (faults : List WriteFault),
        (auto_save_run r fs faults).2
          = faults.map (fun f => !r.stateVec.isEmpty && f == .ok))
    ∧ (∀ (r : RoomP) (fs : FS) (k : Nat), r.stateVec.isEmpty = false →
        alookup (save_document r fs (.failAt k)).1 (room_file_path r)
          = some ⟨r.stateVec.take (min k r.stateVec.length), true⟩)
    ∧ (∀ (r : RoomP) (fs : FS), r.stateVec.isEmpty = false →
        alookup (save_document r fs .ok).1 (room_file_path r)
          = some ⟨r.stateVec, true⟩)
    ∧ (∀ (r : RoomP) (fs : FS) (k : Nat),
        alookup (auto_save_run r fs [.failAt k, .ok]).1 (room_file_path r)
          = alookup (auto_save_run r fs [.ok]).1 (room_file_path r)) := by
  refine ⟨?_, ?_, ?_, ?_⟩
  · intro r fs faults
    induction faults generalizing fs with
    | nil => rfl
    | cons f rest ih =>
      simp only [auto_save_run, List.map_cons, save_document_flag, ih]
  · intro r fs k h
    simp [save_document, h, alookup_aset_self]
  · intro r fs h
    simp [save_document, h, alookup_aset_self]
  · intro r fs k
    by_cases h : r.stateVec.isEmpty
    · simp [auto_save_run, save_document, h]
    · simp only [auto_save_run, save_document, if_neg h]
      rw [alookup_aset_self, alookup_aset_self]

/-- C4 witness: the amended theorem applied to a room with the
two-byte state 0x01 0x02: a write failing after one byte leaves the
destination truncated to 0x01. -/
theorem C4_witness :
    (⟨String.toList "r", [1, 2]⟩ : RoomP).stateVec.isEmpty = false
    ∧ alookup (save_document ⟨String.toList "r", [1, 2]⟩ [] (.failAt 1)).1
        (room_file_path ⟨String.toList "r", [1, 2]⟩)
      = some ⟨([1, 2] : Bytes).take (min 1 ([1, 2] : Bytes).length), true⟩ :=
  ⟨by decide,
    C4_amended_autosave.2.1 ⟨String.toList "r", [1, 2]⟩ [] 1 (by decide)⟩

theorem allowedChar_no_sep {c : Char} (h : allowedChar c = true) :
    c ≠ '/' ∧ c ≠ '\\' := by
  constructor
  · intro hh
    rw [hh] at h
    exact absurd h (by decide)
  · intro hh
    rw [hh] at h
    exact absurd h (by decide)

/-- C5: room-name normalization `safe_room_id` is a pure total function
(the Lean embedding is total by construction), deterministic, and its
output is non-empty, at most 128 characters long, and drawn from the
class A-Za-z0-9 dot underscore hyphen. -/
theorem C5_normalize_total (name : List Char) :
    (∀ other : List Char, name = other →
        safe_room_id name = safe_room_id other)
    ∧ safe_room_id name ≠ []
    ∧ (safe_room_id name).length ≤ 128
    ∧ (∀ c ∈ safe_room_id name, allowedChar c = true) :=
  ⟨fun other h => by rw [h], safe_room_id_ne_nil name, safe_room_id_len name,
    safe_room_id_chars name⟩

/-- C5 witness: the theorem applied to a concrete name. -/
theorem C5_witness :
    safe_room_id (String.toList "a") = safe_room_id (String.toList "a")
    ∧ ('a' ∈ safe_room_id (String.toList "a-b.c")
      ∧ allowedChar 'a' = true) :=
  ⟨(C5_normalize_total (String.toList "a")).1 (String.toList "a") rfl,
    by decide,
    (C5_normalize_total (String.toList "a-b.c")).2.2.2 'a' (by decide)⟩

/-- C6 counterexample: the input consisting of a single dot normalizes
to the key consisting of a single dot, so the normalized key can be the
segment dot (and likewise dot-dot), contrary to the claim. -/
theorem C6_counterexample :
    safe_room_id (String.toList ".") = String.toList "."
    ∧ safe_room_id (String.toList "..") = String.toList ".." := by
  decide

/-- C6 (amended): the key itself can be dot or dot-dot, but it never
contains a path separator, and the on-disk filenames derived from it
always append a non-empty extension (ystore in crdtserver, bin in
simpleServer), so the resulting filename is never the segment dot or
dot-dot and cannot name the current or parent directory or escape the
storage directory. -/
theorem C6_amended_no_escape (name : List Char) :
    (∀ c ∈ safe_room_id name, c ≠ '/' ∧ c ≠ '\\')
    ∧ safe_room_id name ++ String.toList ".ystore" ≠ String.toList "."
    ∧ safe_room_id name ++ String.toList ".ystore" ≠ String.toList ".."
    ∧ room_to_filename (safe_room_id name) ≠ String.toList "."
    ∧ room_to_filename (safe_room_id name) ≠ String.toList ".." := by
  have hpos : 0 < (safe_room_id name).length :=
    List.length_pos.mpr (safe_room_id_ne_nil name)
  refine ⟨?_, ?_, ?_, ?_, ?_⟩
  · intro c hc
    exact allowedChar_no_sep (safe_room_id_chars name c hc)
  · intro h
    have h1 := congrArg List.length h
    rw [List.length_append] at h1
    have e1 : (String.toList ".ystore").length = 7 := rfl
    have e2 : (String.toList ".").length = 1 := rfl
    omega
  · intro h
    have h1 := congrArg List.length h
    rw [List.length_append] at h1
    have e1 : (String.toList ".ystore").length = 7 := rfl
    have e2 : (String.toList "..").length = 2 := rfl
    omega
  · intro h
    have h1 := congrArg List.length h
    rw [room_to_filename, List.length_append] at h1
    have e1 : (String.toList ".bin").length = 4 := rfl
    have e2 : (String.toList ".").length = 1 := rfl
    omega
  · intro h
    have h1 := congrArg List.length h
    rw [room_to_filename, List.length_append] at h1
    have e1 : (String.toList ".bin").length = 4 := rfl
    have e2 : (String.toList "..").length = 2 := rfl
    omega

/-- C6 witness: the amended theorem applied to the dot input. -/
theorem C6_witness :
    '.' ∈ safe_room_id (String.toList ".")
    ∧ ('.' ≠ '/' ∧ '.' ≠ '\\') :=
  ⟨by decide, (C6_amended_no_escape (String.toList ".")).1 '.' (by decide)⟩

/-- C7: encoding a SYNC_UPDATE frame — varint outer kind 0, varint
sub-kind 2, varint payload length, then the raw payload with no
padding — and decoding it with `parse_ws_frame` yields the sync/update
classification with payload bytes exactly equal to the original. -/
theorem C7_sync_update_roundtrip (P : Bytes) :
    parse_ws_frame (encodeSyncUpdate P) = .syncUpdate P := by
  have hframe : encodeSyncUpdate P
      = 0 :: 2 :: (writeVarUint P.length ++ P) := by
    rw [encodeSyncUpdate]
    have h0 : writeVarUint SYNC = [0] := by simp [SYNC, writeVarUint]
    have h2 : writeVarUint SYNC_UPDATE = [2] := by
      simp [SYNC_UPDATE, writeVarUint]
    rw [h0, h2]
    rfl
  have h1 : read_varuint (0 :: 2 :: (writeVarUint P.length ++ P)) 0
      = some (0, 1) := rfl
  have h2v : read_varuint (0 :: 2 :: (writeVarUint P.length ++ P)) 1
      = some (2, 2) := rfl
  have hlen : read_varuint (0 :: 2 :: (writeVarUint P.length ++ P)) 2
      = some (P.length, 2 + (writeVarUint P.length).length) := by
    unfold read_varuint
    have hdrop : (0 :: 2 :: (writeVarUint P.length ++ P)).drop 2
        = writeVarUint P.length ++ P := rfl
    rw [hdrop, read_varuint_from_write P.length P 0 0 (by norm_num)]
    simp
  have hdrop2 : (0 :: 2 :: (writeVarUint P.length ++ P)).drop
      (2 + (writeVarUint P.length).length) = P := by
    have e : 2 + (writeVarUint P.length).length
        = (writeVarUint P.length).length + 2 := by omega
    rw [e]
    simp only [List.drop_succ_cons]
    exact List.drop_left _ _
  have harr : read_varuint8array (0 :: 2 :: (writeVarUint P.length ++ P)) 2
      = some (P, 2 + (writeVarUint P.length).length + P.length) := by
    simp only [read_varuint8array, hlen, hdrop2, List.take_length]
  have hbody : parse_body (0 :: 2 :: (writeVarUint P.length ++ P))
      = some (.syncUpdate P) := by
    simp [parse_body, h1, h2v, harr, SYNC, SYNC_STEP1, SYNC_STEP2,
      SYNC_UPDATE, AWARENESS, AUTH]
  rw [hframe]
  simp [parse_ws_frame, hbody]

/-- C8 counterexample: the tagged parse-error result does not carry the
raw input bytes: for a malformed 33-byte frame of continuation bytes it
carries only the first 32 bytes (the head_hex field) and the length, and
that head differs from the raw input. -/
theorem C8_counterexample :
    parse_ws_frame (List.replicate 33 128)
      = .parseError (List.replicate 32 128) 33
    ∧ List.replicate 32 128 ≠ List.replicate 33 128 := by
  decide

/-- C8 (amended): frame decoding never raises past the caller: any
exception of the parse body is converted into a tagged parse-error
result carrying the frame's first 32 bytes and its length (not the whole
raw frame; the caller `recv` retains and forwards the raw buffer
unchanged regardless of the classification); a frame of k continuation
bytes is such a malformed input for every k; and a frame whose declared
payload length exceeds the available bytes does not error at all — the
payload is silently truncated and still classified sync/update. -/
theorem C8_amended_parse_error :
    (∀ frame, parse_body frame = none →
        parse_ws_frame frame = .parseError (frame.take 32) frame.length)
    ∧ (∀ frame info, parse_body frame = some info →
        parse_ws_frame frame = info)
    ∧ (∀ k, parse_ws_frame (List.replicate k 128)
        = .parseError ((List.replicate k 128).take 32) k)
    ∧ (∀ (P : Bytes) (n : Nat), P.length < n →
        parse_ws_frame (0 :: 2 :: (writeVarUint n ++ P))
          = .syncUpdate P) := by
  refine ⟨?_, ?_, ?_, ?_⟩
  · intro frame h
    simp [parse_ws_frame, h]
  · intro frame info h
    simp [parse_ws_frame, h]
  · intro k
    have hr : read_varuint (List.replicate k 128) 0 = none := by
      unfold read_varuint
      rw [List.drop_zero, read_varuint_from_allCont]
    have hb : parse_body (List.replicate k 128) = none := by
      simp [parse_body, hr]
    simp [parse_ws_frame, hb, List.length_replicate]
  · intro P n hlt
    have h1 : read_varuint (0 :: 2 :: (writeVarUint n ++ P)) 0
        = some (0, 1) := rfl
    have h2v : read_varuint (0 :: 2 :: (writeVarUint n ++ P)) 1
        = some (2, 2) := rfl
    have hlen : read_varuint (0 :: 2 :: (writeVarUint n ++ P)) 2
        = some (n, 2 + (writeVarUint n).length) := by
      unfold read_varuint
      have hdrop : (0 :: 2 :: (writeVarUint n ++ P)).drop 2
          = writeVarUint n ++ P := rfl
      rw [hdrop, read_varuint_from_write n P 0 0 (by norm_num)]
      simp
    have hdrop2 : (0 :: 2 :: (writeVarUint n ++ P)).drop
        (2 + (writeVarUint n).length) = P := by
      have e : 2 + (writeVarUint n).length
          = (writeVarUint n).length + 2 := by omega
      rw [e]
      simp only [List.drop_succ_cons]
      exact List.drop_left _ _
    have harr : read_varuint8array (0 :: 2 :: (writeVarUint n ++ P)) 2
        = some (P, 2 + (writeVarUint n).length + n) := by
      simp only [read_varuint8array, hlen, hdrop2]
      rw [List.take_of_length_le (Nat.le_of_lt hlt)]
    have hbody : parse_body (0 :: 2 :: (writeVarUint n ++ P))
        = some (.syncUpdate P) := by
      simp [parse_body, h1, h2v, harr, SYNC, SYNC_STEP1, SYNC_STEP2,
        SYNC_UPDATE, AWARENESS, AUTH]
    simp [parse_ws_frame, hbody]

/-- C8 witness: the amended theorem applied to the one-byte malformed
frame 0x80 and to a truncated sync/update frame. -/
theorem C8_witness :
    (parse_body [128] = none
      ∧ parse_ws_frame [128] = .parseError ([128].take 32) 1)
    ∧ ((5 : Nat) < 9
      ∧ parse_ws_frame (0 :: 2 :: (writeVarUint 9 ++ [1, 2, 3, 4, 5]))
          = .syncUpdate [1, 2, 3, 4, 5]) :=
  ⟨⟨by decide, C8_amended_parse_error.1 [128] (by decide)⟩,
    ⟨by decide,
      C8_amended_parse_error.2.2.2 [1, 2, 3, 4, 5] 9 (by decide)⟩⟩

/-- C9: on a received and classified frame, `WSAdapter.recv` triggers a
snapshot save exactly when the frame is sync/update, or when it is
sync/step2 with a non-empty payload and the delta extraction succeeded
with a non-empty observed delta; for every other classification,
including parse errors, awareness, auth, step1 and unknown kinds, no
persistence is triggered. -/
theorem C9_persist_policy (frame : List Nat) (deltaOk : Bool)
    (deltas : List Unit) :
    recv_should_persist (parse_ws_frame frame) deltaOk deltas = true
      ↔ ((∃ P, parse_ws_frame frame = .syncUpdate P)
        ∨ (∃ P, parse_ws_frame frame = .syncStep2 P ∧ P ≠ []
            ∧ deltaOk = true ∧ deltas ≠ [])) := by
  cases hp : parse_ws_frame frame with
  | syncStep1 a => simp [recv_should_persist]
  | syncStep2 upd =>
    simp only [recv_should_persist, hp]
    constructor
    · intro h
      refine Or.inr ⟨upd, rfl, ?_, ?_, ?_⟩
      · intro hu
        rw [hu] at h
        simp at h
      · cases deltaOk
        · simp at h
        · rfl
      · intro hd
        rw [hd] at h
        simp at h
    · intro h
      rcases h with ⟨P, hP⟩ | ⟨P, hP, hne, hd, hdel⟩
      · exact absurd hP (by simp)
      · have hPu : P = upd := by
          have := hP
          injection this with h2
          exact h2.symm
        rw [hPu] at hne
        have h1 : decide (0 < upd.length) = true := by
          simp [List.length_pos]
          exact hne
        have h2 : deltas.isEmpty = false := by
          cases deltas
          · exact absurd rfl hdel
          · rfl
        rw [h1, hd, h2]
        rfl
  | syncUpdate upd => simp [recv_should_persist]
  | syncUnknown a => simp [recv_should_persist]
  | awareness a => simp [recv_should_persist]
  | auth a => simp [recv_should_persist]
  | unknownType a => simp [recv_should_persist]
  | parseError a b => simp [recv_should_persist]

/-- C10: the varint decoder accepts non-minimal encodings: every
encoding padded with redundant continuation bytes decodes to the same
value, consuming the whole padded run; in particular both 0x00 and
0x80 0x00 decode to 0, so decoding is not injective and re-encoding a
decoded value need not reproduce the original bytes. -/
theorem C10_varint_nonminimal :
    (∀ n k, read_varuint (padVarUint n k) 0
        = some (n, (writeVarUint n).length + k + 1))
    ∧ read_varuint [0] 0 = some (0, 1)
    ∧ read_varuint [128, 0] 0 = some (0, 2)
    ∧ padVarUint 0 0 = [128, 0]
    ∧ writeVarUint 0 = [0]
    ∧ writeVarUint 0 ≠ [128, 0] := by
  refine ⟨read_varuint_pad, by decide, by decide, ?_, ?_, ?_⟩
  · simp [padVarUint, writeVarUint]
  · simp [writeVarUint]
  · simp [writeVarUint]

end TopicMgr
